import Mathlib

/-!
Verification of the Muse headband keyboard controller
(`src/muse_keyboard_controller.py`) against its design specification.

The engine state and the per-sample handlers are shallowly embedded below.
Sensor axis values are modelled as rationals; the Python globals
(`calibrated`, the baselines, the calibration buffers and the two
held-key flags) become the fields of `EngineState`.  Each OSC handler
becomes a function from the state and the sample payload to the new state
together with the list of keyboard actions it performs, in the order the
source performs them.
-/

/-- Logical keys used by the controller (`Key.up/.down/.left/.right/.space`). -/
inductive LogicalKey
  | up
  | down
  | left
  | right
  | space
deriving DecidableEq, Repr

/-- One observable action at the keyboard-injection boundary:
`keyboard.press`, `keyboard.release`, or `time.sleep` (the blink handler's
minimum-hold delay). -/
inductive KeyAction
  | press (k : LogicalKey)
  | release (k : LogicalKey)
  | sleep (seconds : ℚ)
deriving DecidableEq, Repr

/-- The `CONTROL_MODE` configuration value (`"tilt"`, `"swivel"`, `"both"`). -/
inductive ControlMode
  | tilt
  | swivel
  | both
deriving DecidableEq, Repr

/-- `TILT_THRESHOLD = 0.05` (source line 32). -/
def TILT_THRESHOLD : ℚ := 0.05

/-- `SWIVEL_THRESHOLD = 100` (source line 33). -/
def SWIVEL_THRESHOLD : ℚ := 100

/-- `SWIVEL_RELEASE_THRESHOLD = 50` (source line 34). -/
def SWIVEL_RELEASE_THRESHOLD : ℚ := 50

/-- `CALIBRATION_SAMPLES = 30` (source line 37). -/
def CALIBRATION_SAMPLES : ℕ := 30

/-- The module-level mutable state of the controller: the calibration
flag and baselines (lines 41-44), the calibration buffers
(`calibration_data`, line 45) and the two held-key flags (lines 23-24). -/
structure EngineState where
  calibrated : Bool
  baseline_acc_x : ℚ
  baseline_acc_y : ℚ
  baseline_gyro_z : ℚ
  acc_x_buf : List ℚ
  acc_y_buf : List ℚ
  gyro_z_buf : List ℚ
  left_key_held : Bool
  right_key_held : Bool
deriving DecidableEq, Repr

/-- The state at process start (lines 23-24 and 41-45). -/
def initState : EngineState :=
  { calibrated := false
    baseline_acc_x := 0
    baseline_acc_y := 0
    baseline_gyro_z := 0
    acc_x_buf := []
    acc_y_buf := []
    gyro_z_buf := []
    left_key_held := false
    right_key_held := false }

/-- One incoming OSC message relevant to the engine: an accelerometer
sample, a gyroscope sample, a blink flag or a jaw-clench flag. -/
inductive Sample
  | acc (x y z : ℚ)
  | gyro (x y z : ℚ)
  | blink (active : Bool)
  | jawClench (active : Bool)
deriving DecidableEq, Repr

/-- `calibration_acc_handler` (lines 54-71).  While not calibrated and the
accelerometer buffer is short of `CALIBRATION_SAMPLES`, append `(x, y)`;
on reaching the count, set the accelerometer baselines to the buffer
means, and flip `calibrated` if the gyroscope buffer is also full.
The handler performs no keyboard actions. -/
def calibration_acc_handler (s : EngineState) (x y z : ℚ) : EngineState :=
  if s.calibrated = false ∧ s.acc_x_buf.length < CALIBRATION_SAMPLES then
    let s1 := { s with acc_x_buf := s.acc_x_buf ++ [x], acc_y_buf := s.acc_y_buf ++ [y] }
    if s1.acc_x_buf.length = CALIBRATION_SAMPLES then
      let s2 := { s1 with
        baseline_acc_x := s1.acc_x_buf.sum / (CALIBRATION_SAMPLES : ℚ)
        baseline_acc_y := s1.acc_y_buf.sum / (CALIBRATION_SAMPLES : ℚ) }
      if s2.gyro_z_buf.length = CALIBRATION_SAMPLES then
        { s2 with calibrated := true }
      else s2
    else s1
  else s

/-- `calibration_gyro_handler` (lines 73-88): symmetric to the
accelerometer case, buffering only the yaw axis `z`. -/
def calibration_gyro_handler (s : EngineState) (x y z : ℚ) : EngineState :=
  if s.calibrated = false ∧ s.gyro_z_buf.length < CALIBRATION_SAMPLES then
    let s1 := { s with gyro_z_buf := s.gyro_z_buf ++ [z] }
    if s1.gyro_z_buf.length = CALIBRATION_SAMPLES then
      let s2 := { s1 with
        baseline_gyro_z := s1.gyro_z_buf.sum / (CALIBRATION_SAMPLES : ℚ) }
      if s2.acc_x_buf.length = CALIBRATION_SAMPLES then
        { s2 with calibrated := true }
      else s2
    else s1
  else s

/-- `blink_handler` (lines 95-101): on `blink`, press space, sleep 0.1 s,
release space; otherwise nothing.  No calibration or mode gating. -/
def blink_handler (blink : Bool) : List KeyAction :=
  if blink then
    [KeyAction.press LogicalKey.space, KeyAction.sleep 0.1, KeyAction.release LogicalKey.space]
  else []

/-- `jaw_clench_handler` (lines 103-108): on `jaw_clench`, press then
immediately release the up arrow; otherwise nothing. -/
def jaw_clench_handler (jaw_clench : Bool) : List KeyAction :=
  if jaw_clench then
    [KeyAction.press LogicalKey.up, KeyAction.release LogicalKey.up]
  else []

/-- `accelerometer_handler` (lines 110-157).  Skips when
`CONTROL_MODE == "swivel"` or not calibrated.  The forward/back block on
`rel_x` (lines 129-142) is commented out in the source, so only
`rel_y = y - baseline_acc_y` is acted on; the handler mutates no global
state. -/
def accelerometer_handler (mode : ControlMode) (s : EngineState) (x y z : ℚ) :
    EngineState × List KeyAction :=
  if mode = ControlMode.swivel then (s, [])
  else if s.calibrated = false then (s, [])
  else
    let rel_y := y - s.baseline_acc_y
    if rel_y < -TILT_THRESHOLD then
      (s, [KeyAction.press LogicalKey.left])
    else if rel_y > TILT_THRESHOLD then
      (s, [KeyAction.press LogicalKey.right])
    else
      (s, [KeyAction.release LogicalKey.left, KeyAction.release LogicalKey.right])

/-- `gyroscope_handler` (lines 159-209).  Skips when
`CONTROL_MODE == "tilt"` or not calibrated.  Otherwise three zones on
`rel_z = z - baseline_gyro_z`:
* `rel_z < -SWIVEL_THRESHOLD` (lines 179-187): press left if not already
  held, then release right if it was held; the flags end at
  `left = true, right = false` (each assignment in the source is guarded
  by a test that the flag currently has the other value, so writing both
  values unconditionally is the same net effect).
* `rel_z > SWIVEL_THRESHOLD` (lines 189-198): symmetric.
* `|rel_z| < SWIVEL_RELEASE_THRESHOLD` (lines 200-209): release whichever
  keys were held; both flags end false.
* otherwise (dead band): no branch of the source runs; state unchanged.
KeyAction order inside each zone matches the source text. -/
def gyroscope_handler (mode : ControlMode) (s : EngineState) (x y z : ℚ) :
    EngineState × List KeyAction :=
  if mode = ControlMode.tilt then (s, [])
  else if s.calibrated = false then (s, [])
  else
    let rel_z := z - s.baseline_gyro_z
    if rel_z < -SWIVEL_THRESHOLD then
      ({ s with left_key_held := true, right_key_held := false },
        (if s.left_key_held then [] else [KeyAction.press LogicalKey.left]) ++
        (if s.right_key_held then [KeyAction.release LogicalKey.right] else []))
    else if rel_z > SWIVEL_THRESHOLD then
      ({ s with right_key_held := true, left_key_held := false },
        (if s.right_key_held then [] else [KeyAction.press LogicalKey.right]) ++
        (if s.left_key_held then [KeyAction.release LogicalKey.left] else []))
    else if |rel_z| < SWIVEL_RELEASE_THRESHOLD then
      ({ s with left_key_held := false, right_key_held := false },
        (if s.left_key_held then [KeyAction.release LogicalKey.left] else []) ++
        (if s.right_key_held then [KeyAction.release LogicalKey.right] else []))
    else (s, [])

/-- Processing of one OSC message by the dispatcher (lines 222-240).
For `/muse/acc` the dispatcher maps `calibration_acc_handler` and then
`accelerometer_handler`, in that registration order; `/muse/gyro`
symmetrically; blink and jaw-clench have single handlers. -/
def processSample (mode : ControlMode) (s : EngineState) : Sample → EngineState × List KeyAction
  | Sample.acc x y z =>
      accelerometer_handler mode (calibration_acc_handler s x y z) x y z
  | Sample.gyro x y z =>
      gyroscope_handler mode (calibration_gyro_handler s x y z) x y z
  | Sample.blink b => (s, blink_handler b)
  | Sample.jawClench b => (s, jaw_clench_handler b)

/-- Run the engine over a list of samples, accumulating the performed
actions in order. -/
def runSamples (mode : ControlMode) : EngineState → List Sample → EngineState × List KeyAction
  | s, [] => (s, [])
  | s, m :: rest =>
      let stp := processSample mode s m
      let rest' := runSamples mode stp.1 rest
      (rest'.1, stp.2 ++ rest'.2)

/-- The three swivel states named in the specification. -/
inductive SwivelState
  | Centered
  | HoldingLeft
  | HoldingRight
deriving DecidableEq, Repr

/-- The swivel state determined by the two held-key flags. -/
def swivelStateOf (s : EngineState) : SwivelState :=
  if s.left_key_held then SwivelState.HoldingLeft
  else if s.right_key_held then SwivelState.HoldingRight
  else SwivelState.Centered

/-- A calibrated state with all baselines zero and full (all-zero)
calibration buffers, no key held: the state reached by feeding
`CALIBRATION_SAMPLES` all-zero samples of each sensor. -/
def calibZeroState : EngineState :=
  { calibrated := true
    baseline_acc_x := 0
    baseline_acc_y := 0
    baseline_gyro_z := 0
    acc_x_buf := List.replicate CALIBRATION_SAMPLES 0
    acc_y_buf := List.replicate CALIBRATION_SAMPLES 0
    gyro_z_buf := List.replicate CALIBRATION_SAMPLES 0
    left_key_held := false
    right_key_held := false }

/-- The swivel state after each gyroscope sample of a run, feeding the
given `z` values (with `x = y = 0`) one at a time. -/
def swivelStates (mode : ControlMode) (s : EngineState) : List ℚ → List SwivelState
  | [] => []
  | z :: rest =>
      let s1 := (processSample mode s (Sample.gyro 0 0 z)).1
      swivelStateOf s1 :: swivelStates mode s1 rest

/-! ### Basic frame lemmas about the handlers -/

/-- `accelerometer_handler` never mutates any state: every branch of the
source only presses or releases keys. -/
lemma accelerometer_handler_state (mode : ControlMode) (s : EngineState) (x y z : ℚ) :
    (accelerometer_handler mode s x y z).1 = s := by
  simp only [accelerometer_handler]
  split_ifs <;> rfl

/-- The accelerometer calibration handler does not touch the held-key flags. -/
lemma calibration_acc_handler_flags (s : EngineState) (x y z : ℚ) :
    (calibration_acc_handler s x y z).left_key_held = s.left_key_held ∧
    (calibration_acc_handler s x y z).right_key_held = s.right_key_held := by
  simp only [calibration_acc_handler]
  split_ifs <;> exact ⟨rfl, rfl⟩

/-- The gyroscope calibration handler does not touch the held-key flags. -/
lemma calibration_gyro_handler_flags (s : EngineState) (x y z : ℚ) :
    (calibration_gyro_handler s x y z).left_key_held = s.left_key_held ∧
    (calibration_gyro_handler s x y z).right_key_held = s.right_key_held := by
  simp only [calibration_gyro_handler]
  split_ifs <;> exact ⟨rfl, rfl⟩

/-- One gyroscope step preserves "not both keys held". -/
lemma gyroscope_handler_mutex (mode : ControlMode) (s : EngineState) (x y z : ℚ)
    (h : (s.left_key_held && s.right_key_held) = false) :
    ((gyroscope_handler mode s x y z).1.left_key_held &&
     (gyroscope_handler mode s x y z).1.right_key_held) = false := by
  simp only [gyroscope_handler]
  split_ifs <;> simp_all

/-- Processing any single sample preserves "not both keys held". -/
lemma processSample_mutex (mode : ControlMode) (s : EngineState) (m : Sample)
    (h : (s.left_key_held && s.right_key_held) = false) :
    ((processSample mode s m).1.left_key_held &&
     (processSample mode s m).1.right_key_held) = false := by
  cases m with
  | acc x y z =>
      have hf := calibration_acc_handler_flags s x y z
      simp only [processSample, accelerometer_handler_state]
      rw [hf.1, hf.2]; exact h
  | gyro x y z =>
      have hf := calibration_gyro_handler_flags s x y z
      simp only [processSample]
      exact gyroscope_handler_mutex mode _ x y z (by rw [hf.1, hf.2]; exact h)
  | blink b => exact h
  | jawClench b => exact h

/-- Any run preserves "not both keys held". -/
lemma runSamples_mutex (mode : ControlMode) :
    ∀ (msgs : List Sample) (s : EngineState),
      (s.left_key_held && s.right_key_held) = false →
      ((runSamples mode s msgs).1.left_key_held &&
       (runSamples mode s msgs).1.right_key_held) = false := by
  intro msgs
  induction msgs with
  | nil => intro s h; exact h
  | cons m rest ih =>
      intro s h
      simp only [runSamples]
      exact ih _ (processSample_mutex mode s m h)

/-! ### Claim theorems -/

/-- Claim C1: for every sample sequence processed from the initial state
(no key held), the swivel detector never ends a step with both the left
and the right key flagged as held. -/
theorem swivel_mutual_exclusion (mode : ControlMode) (msgs : List Sample) :
    ((runSamples mode initState msgs).1.left_key_held &&
     (runSamples mode initState msgs).1.right_key_held) = false :=
  runSamples_mutex mode msgs initState rfl

/-- Claim C8: the blink and jaw-clench handlers are not gated on
calibration or mode: for every state, an active blink performs exactly
press(Space), the 0.1 s minimum-hold sleep, release(Space); an active jaw
clench performs exactly press(Up), release(Up); inactive events perform
nothing, and the state never changes. -/
theorem discrete_gesture_pulses (mode : ControlMode) (s : EngineState) :
    processSample mode s (Sample.blink true) =
      (s, [KeyAction.press LogicalKey.space, KeyAction.sleep 0.1,
           KeyAction.release LogicalKey.space]) ∧
    processSample mode s (Sample.blink false) = (s, []) ∧
    processSample mode s (Sample.jawClench true) =
      (s, [KeyAction.press LogicalKey.up, KeyAction.release LogicalKey.up]) ∧
    processSample mode s (Sample.jawClench false) = (s, []) :=
  ⟨rfl, rfl, rfl, rfl⟩

/-- Claim C9: the tilt handler in swivel mode, the swivel handler in tilt
mode, and either handler before calibration, perform no keyboard actions
and leave the state (hold flags, buffers, baselines) unchanged. -/
theorem mode_and_calibration_gating (mode : ControlMode) (s : EngineState) (x y z : ℚ) :
    accelerometer_handler ControlMode.swivel s x y z = (s, []) ∧
    gyroscope_handler ControlMode.tilt s x y z = (s, []) ∧
    (s.calibrated = false →
      accelerometer_handler mode s x y z = (s, []) ∧
      gyroscope_handler mode s x y z = (s, [])) := by
  refine ⟨rfl, rfl, fun h => ⟨?_, ?_⟩⟩
  · by_cases hm : mode = ControlMode.swivel <;> simp [accelerometer_handler, hm, h]
  · by_cases hm : mode = ControlMode.tilt <;> simp [gyroscope_handler, hm, h]

/-- Witness for C9 at a concrete uncalibrated state and sample. -/
theorem mode_and_calibration_gating_witness :
    accelerometer_handler ControlMode.tilt initState 1 2 3 = (initState, []) ∧
    gyroscope_handler ControlMode.swivel initState 1 2 3 = (initState, []) :=
  (mode_and_calibration_gating ControlMode.tilt initState 1 2 3).2.2 rfl |>.imp
    id (fun _ => (mode_and_calibration_gating ControlMode.swivel initState 1 2 3).2.2 rfl |>.2)

/-- Claim C10: after calibration the tilt detector's behaviour is
independent of the x and z axes: two accelerometer samples agreeing on y
produce identical state and actions, and the possible action lists never
involve the up/down keys (forward/back tilt is inert). -/
theorem tilt_ignores_x_z_axes (mode : ControlMode) (s : EngineState)
    (y x1 z1 x2 z2 : ℚ) (hc : s.calibrated = true) :
    accelerometer_handler mode s x1 y z1 = accelerometer_handler mode s x2 y z2 ∧
    ((accelerometer_handler mode s x1 y z1).2 = [] ∨
     (accelerometer_handler mode s x1 y z1).2 = [KeyAction.press LogicalKey.left] ∨
     (accelerometer_handler mode s x1 y z1).2 = [KeyAction.press LogicalKey.right] ∨
     (accelerometer_handler mode s x1 y z1).2 =
       [KeyAction.release LogicalKey.left, KeyAction.release LogicalKey.right]) := by
  constructor
  · rfl
  · simp only [accelerometer_handler]
    split_ifs <;> simp

/-- Witness for C10 at a concrete calibrated state: x and z vary wildly,
y is fixed, and the handler's output coincides. -/
theorem tilt_ignores_x_z_axes_witness :
    accelerometer_handler ControlMode.tilt calibZeroState 7 0.2 (-9) =
      accelerometer_handler ControlMode.tilt calibZeroState (-100) 0.2 55 ∧
    ((accelerometer_handler ControlMode.tilt calibZeroState 7 0.2 (-9)).2 = [] ∨
     (accelerometer_handler ControlMode.tilt calibZeroState 7 0.2 (-9)).2 =
       [KeyAction.press LogicalKey.left] ∨
     (accelerometer_handler ControlMode.tilt calibZeroState 7 0.2 (-9)).2 =
       [KeyAction.press LogicalKey.right] ∨
     (accelerometer_handler ControlMode.tilt calibZeroState 7 0.2 (-9)).2 =
       [KeyAction.release LogicalKey.left, KeyAction.release LogicalKey.right]) :=
  tilt_ignores_x_z_axes ControlMode.tilt calibZeroState 0.2 7 (-9) (-100) 55 rfl

/-- Claim C2: with engage threshold 100 and release threshold 50, the
swivel detector follows the three-zone hysteresis policy — engage left
below `-SWIVEL_THRESHOLD`, engage right above `SWIVEL_THRESHOLD`, release
when `|relZ| < SWIVEL_RELEASE_THRESHOLD`, and no transition at all in the
dead band — and concretely the relZ sequence `[0, -60, -120, -60, -40]`
from `Centered` yields states
`[Centered, Centered, HoldingLeft, HoldingLeft, Centered]`. -/
theorem swivel_hysteresis_three_zone (mode : ControlMode) (s : EngineState) (x y z : ℚ)
    (hm : mode ≠ ControlMode.tilt) (hc : s.calibrated = true) :
    (z - s.baseline_gyro_z < -SWIVEL_THRESHOLD →
       swivelStateOf (gyroscope_handler mode s x y z).1 = SwivelState.HoldingLeft) ∧
    (z - s.baseline_gyro_z > SWIVEL_THRESHOLD →
       swivelStateOf (gyroscope_handler mode s x y z).1 = SwivelState.HoldingRight) ∧
    (|z - s.baseline_gyro_z| < SWIVEL_RELEASE_THRESHOLD →
       swivelStateOf (gyroscope_handler mode s x y z).1 = SwivelState.Centered) ∧
    (SWIVEL_RELEASE_THRESHOLD ≤ |z - s.baseline_gyro_z| →
       |z - s.baseline_gyro_z| ≤ SWIVEL_THRESHOLD →
       gyroscope_handler mode s x y z = (s, [])) ∧
    swivelStates ControlMode.swivel calibZeroState [0, -60, -120, -60, -40] =
      [SwivelState.Centered, SwivelState.Centered, SwivelState.HoldingLeft,
       SwivelState.HoldingLeft, SwivelState.Centered] := by
  have hcal : ¬ s.calibrated = false := by simp [hc]
  simp only [gyroscope_handler, if_neg hm, if_neg hcal,
    SWIVEL_THRESHOLD, SWIVEL_RELEASE_THRESHOLD]
  refine ⟨fun h => ?_, fun h => ?_, fun h => ?_, fun h1 h2 => ?_, by decide!⟩
  · rw [if_pos h]; simp [swivelStateOf]
  · rw [if_neg (by linarith), if_pos h]; simp [swivelStateOf]
  · have hab := abs_lt.mp h
    rw [if_neg (by linarith [hab.1]), if_neg (by linarith [hab.2]), if_pos h]
    simp [swivelStateOf]
  · have hab := abs_le.mp h2
    rw [if_neg (by linarith [hab.1]), if_neg (by linarith [hab.2]),
      if_neg (not_lt.mpr h1)]

/-- Witness for C2: engaging at relZ = -120 from the centered calibrated
state holds left; relZ = -60 is in the dead band and changes nothing. -/
theorem swivel_hysteresis_three_zone_witness :
    swivelStateOf (gyroscope_handler ControlMode.swivel calibZeroState 0 0 (-120)).1 =
      SwivelState.HoldingLeft ∧
    gyroscope_handler ControlMode.swivel calibZeroState 0 0 (-60) = (calibZeroState, []) :=
  ⟨(swivel_hysteresis_three_zone ControlMode.swivel calibZeroState 0 0 (-120)
      (by decide) rfl).1 (by decide!),
   ((swivel_hysteresis_three_zone ControlMode.swivel calibZeroState 0 0 (-60)
      (by decide) rfl).2.2.2.1 (by decide!) (by decide!))⟩

/-- Claim C5: when calibrated and tilt-enabled, the tilt detector presses
left when relY is below `-TILT_THRESHOLD`, presses right when relY is
above `TILT_THRESHOLD`, and otherwise releases left then right, on every
sample; concretely with zero baseline the y inputs 0.2, 0.01, 0.2 perform
press(Right); release(Left), release(Right); press(Right). -/
theorem tilt_level_trigger_policy (mode : ControlMode) (s : EngineState) (x y z : ℚ)
    (hm : mode ≠ ControlMode.swivel) (hc : s.calibrated = true) :
    (y - s.baseline_acc_y < -TILT_THRESHOLD →
       accelerometer_handler mode s x y z = (s, [KeyAction.press LogicalKey.left])) ∧
    (y - s.baseline_acc_y > TILT_THRESHOLD →
       accelerometer_handler mode s x y z = (s, [KeyAction.press LogicalKey.right])) ∧
    (-TILT_THRESHOLD ≤ y - s.baseline_acc_y → y - s.baseline_acc_y ≤ TILT_THRESHOLD →
       accelerometer_handler mode s x y z =
         (s, [KeyAction.release LogicalKey.left, KeyAction.release LogicalKey.right])) ∧
    (runSamples ControlMode.tilt calibZeroState
       [Sample.acc 0 0.2 0, Sample.acc 0 0.01 0, Sample.acc 0 0.2 0]).2 =
      [KeyAction.press LogicalKey.right,
       KeyAction.release LogicalKey.left, KeyAction.release LogicalKey.right,
       KeyAction.press LogicalKey.right] := by
  have hcal : ¬ s.calibrated = false := by simp [hc]
  have hT : (0 : ℚ) < TILT_THRESHOLD := by norm_num [TILT_THRESHOLD]
  simp only [accelerometer_handler, if_neg hm, if_neg hcal]
  refine ⟨fun h => ?_, fun h => ?_, fun h1 h2 => ?_, by decide!⟩
  · rw [if_pos h]
  · rw [if_neg (by linarith), if_pos h]
  · rw [if_neg (not_lt.mpr h1), if_neg (not_lt.mpr h2)]

/-- Witness for C5: a calibrated tilt step at y = 0.2 presses right. -/
theorem tilt_level_trigger_policy_witness :
    accelerometer_handler ControlMode.tilt calibZeroState 0 0.2 0 =
      (calibZeroState, [KeyAction.press LogicalKey.right]) :=
  (tilt_level_trigger_policy ControlMode.tilt calibZeroState 0 0.2 0
    (by decide) rfl).2.1 (by decide!)

/-- `a` is performed strictly before `b` in the action list `l`
(both occur, and the first occurrence of `a` precedes that of `b`). -/
def emitsBefore (l : List KeyAction) (a b : KeyAction) : Prop :=
  a ∈ l ∧ b ∈ l ∧ l.indexOf a < l.indexOf b

/-- A calibrated centered state in which the right key is held by the
swivel detector (reached e.g. after a sample with relZ > 100). -/
def heldRightState : EngineState :=
  { calibZeroState with right_key_held := true }

/-- Counterexample to claim C6 as stated: with the right key held and a
sample at relZ = -150 (beyond the engage threshold), the source presses
left first (line 182) and only then releases right (line 186), so
release(Right) is not emitted before press(Left). -/
theorem swivel_switch_order_counterexample :
    heldRightState.right_key_held = true ∧
    (-150 : ℚ) - heldRightState.baseline_gyro_z < -SWIVEL_THRESHOLD ∧
    ¬ emitsBefore ((gyroscope_handler ControlMode.swivel heldRightState 0 0 (-150)).2)
        (KeyAction.release LogicalKey.right) (KeyAction.press LogicalKey.left) := by
  refine ⟨rfl, by decide!, ?_⟩
  have : (gyroscope_handler ControlMode.swivel heldRightState 0 0 (-150)).2 =
      [KeyAction.press LogicalKey.left, KeyAction.release LogicalKey.right] := by decide!
  rw [this]
  unfold emitsBefore
  decide

/-- Claim C6 as amended: when a sample beyond the engage threshold arrives
while the opposite key is held, the press of the new direction is emitted
first and the release of the previously held key second, within the same
step. -/
theorem swivel_switch_press_before_release (mode : ControlMode) (s : EngineState) (x y z : ℚ)
    (hm : mode ≠ ControlMode.tilt) (hc : s.calibrated = true) :
    (s.right_key_held = true → s.left_key_held = false →
       z - s.baseline_gyro_z < -SWIVEL_THRESHOLD →
       (gyroscope_handler mode s x y z).2 =
         [KeyAction.press LogicalKey.left, KeyAction.release LogicalKey.right]) ∧
    (s.left_key_held = true → s.right_key_held = false →
       z - s.baseline_gyro_z > SWIVEL_THRESHOLD →
       (gyroscope_handler mode s x y z).2 =
         [KeyAction.press LogicalKey.right, KeyAction.release LogicalKey.left]) := by
  have hcal : ¬ s.calibrated = false := by simp [hc]
  simp only [gyroscope_handler, if_neg hm, if_neg hcal]
  constructor
  · intro hR hL h
    rw [if_pos h]
    simp [hL, hR]
  · intro hL hR h
    have h0 : (0 : ℚ) < SWIVEL_THRESHOLD := by norm_num [SWIVEL_THRESHOLD]
    rw [if_neg (by linarith), if_pos h]
    simp [hL, hR]

/-- Witness for the amended C6 at the concrete held-right state. -/
theorem swivel_switch_press_before_release_witness :
    (gyroscope_handler ControlMode.swivel heldRightState 0 0 (-150)).2 =
      [KeyAction.press LogicalKey.left, KeyAction.release LogicalKey.right] :=
  (swivel_switch_press_before_release ControlMode.swivel heldRightState 0 0 (-150)
    (by decide) rfl).1 rfl rfl (by decide!)

/-! ### Calibration invariant -/

/-- The x values of the accelerometer samples of a message list. -/
def accXs : List Sample → List ℚ
  | [] => []
  | Sample.acc x _ _ :: rest => x :: accXs rest
  | Sample.gyro _ _ _ :: rest => accXs rest
  | Sample.blink _ :: rest => accXs rest
  | Sample.jawClench _ :: rest => accXs rest

/-- The y values of the accelerometer samples of a message list. -/
def accYs : List Sample → List ℚ
  | [] => []
  | Sample.acc _ y _ :: rest => y :: accYs rest
  | Sample.gyro _ _ _ :: rest => accYs rest
  | Sample.blink _ :: rest => accYs rest
  | Sample.jawClench _ :: rest => accYs rest

/-- The z values of the gyroscope samples of a message list. -/
def gyroZs : List Sample → List ℚ
  | [] => []
  | Sample.acc _ _ _ :: rest => gyroZs rest
  | Sample.gyro _ _ z :: rest => z :: gyroZs rest
  | Sample.blink _ :: rest => gyroZs rest
  | Sample.jawClench _ :: rest => gyroZs rest

lemma accXs_length_eq_accYs_length : ∀ msgs : List Sample, (accXs msgs).length = (accYs msgs).length := by
  intro msgs
  induction msgs with
  | nil => rfl
  | cons m rest ih => cases m <;> simp [accXs, accYs, ih]

lemma accXs_append (l1 l2 : List Sample) : accXs (l1 ++ l2) = accXs l1 ++ accXs l2 := by
  induction l1 with
  | nil => rfl
  | cons m rest ih => cases m <;> simp [accXs, ih]

lemma accYs_append (l1 l2 : List Sample) : accYs (l1 ++ l2) = accYs l1 ++ accYs l2 := by
  induction l1 with
  | nil => rfl
  | cons m rest ih => cases m <;> simp [accYs, ih]

lemma gyroZs_append (l1 l2 : List Sample) : gyroZs (l1 ++ l2) = gyroZs l1 ++ gyroZs l2 := by
  induction l1 with
  | nil => rfl
  | cons m rest ih => cases m <;> simp [gyroZs, ih]

/-- Relation between the calibration portion of the engine state and the
axis values fed so far: each buffer holds the first
`CALIBRATION_SAMPLES` fed values, `calibrated` is set exactly when both
sensors have delivered at least that many samples, and once a sensor has,
its baselines equal the mean of its first `CALIBRATION_SAMPLES` values. -/
def calibOk (s : EngineState) (axs ays gzs : List ℚ) : Prop :=
  s.acc_x_buf = axs.take CALIBRATION_SAMPLES ∧
  s.acc_y_buf = ays.take CALIBRATION_SAMPLES ∧
  s.gyro_z_buf = gzs.take CALIBRATION_SAMPLES ∧
  (s.calibrated = true ↔
    (CALIBRATION_SAMPLES ≤ axs.length ∧ CALIBRATION_SAMPLES ≤ gzs.length)) ∧
  (CALIBRATION_SAMPLES ≤ axs.length →
    s.baseline_acc_x = (axs.take CALIBRATION_SAMPLES).sum / (CALIBRATION_SAMPLES : ℚ) ∧
    s.baseline_acc_y = (ays.take CALIBRATION_SAMPLES).sum / (CALIBRATION_SAMPLES : ℚ)) ∧
  (CALIBRATION_SAMPLES ≤ gzs.length →
    s.baseline_gyro_z = (gzs.take CALIBRATION_SAMPLES).sum / (CALIBRATION_SAMPLES : ℚ))

lemma calibOk_acc_step (s : EngineState) (x y z : ℚ) (axs ays gzs : List ℚ)
    (hlen : axs.length = ays.length)
    (h : calibOk s axs ays gzs) :
    calibOk (calibration_acc_handler s x y z) (axs ++ [x]) (ays ++ [y]) gzs := by
  obtain ⟨hbx, hby, hbz, hcal, hba, hbg⟩ := h
  by_cases hN : CALIBRATION_SAMPLES ≤ axs.length
  · -- accelerometer buffer already full: the handler is a no-op
    have hN' : CALIBRATION_SAMPLES ≤ ays.length := hlen ▸ hN
    have hlx : s.acc_x_buf.length = CALIBRATION_SAMPLES := by
      rw [hbx, List.length_take]; omega
    have hguard : ¬(s.calibrated = false ∧ s.acc_x_buf.length < CALIBRATION_SAMPLES) := by
      rintro ⟨-, hlt⟩; omega
    unfold calibration_acc_handler
    rw [if_neg hguard]
    refine ⟨?_, ?_, hbz, ?_, ?_, hbg⟩
    · rw [hbx, List.take_append_of_le_length hN]
    · rw [hby, List.take_append_of_le_length hN']
    · rw [hcal]; simp only [List.length_append, List.length_singleton]; omega
    · intro h1
      rw [List.take_append_of_le_length hN, List.take_append_of_le_length hN']
      exact hba hN
  · -- buffer not yet full: the handler appends (x, y)
    push_neg at hN
    have hN' : ays.length < CALIBRATION_SAMPLES := hlen ▸ hN
    have hlx : s.acc_x_buf = axs := by rw [hbx, List.take_of_length_le (le_of_lt hN)]
    have hly : s.acc_y_buf = ays := by rw [hby, List.take_of_length_le (le_of_lt hN')]
    have hcalf : s.calibrated = false := by
      cases hcs : s.calibrated
      · rfl
      · exact absurd ((hcal.mp hcs).1) (by omega)
    have htx : (axs ++ [x]).take CALIBRATION_SAMPLES = axs ++ [x] := by
      apply List.take_of_length_le; simp only [List.length_append, List.length_singleton]; omega
    have hty : (ays ++ [y]).take CALIBRATION_SAMPLES = ays ++ [y] := by
      apply List.take_of_length_le; simp only [List.length_append, List.length_singleton]; omega
    unfold calibration_acc_handler
    rw [if_pos ⟨hcalf, by rw [hlx]; omega⟩]
    simp only [hlx, hly]
    by_cases hfull : (axs ++ [x]).length = CALIBRATION_SAMPLES
    · rw [if_pos hfull]
      by_cases hg : CALIBRATION_SAMPLES ≤ gzs.length
      · have hlg : s.gyro_z_buf.length = CALIBRATION_SAMPLES := by
          rw [hbz, List.length_take]; omega
        rw [if_pos hlg]
        refine ⟨htx.symm, hty.symm, hbz, ?_, ?_, ?_⟩
        · simp only [List.length_append, List.length_singleton] at hfull ⊢
          exact ⟨fun _ => ⟨by omega, hg⟩, fun _ => trivial⟩
        · intro h1
          rw [htx, hty]
          exact ⟨rfl, rfl⟩
        · intro h1
          exact hbg hg
      · have hlg : s.gyro_z_buf.length ≠ CALIBRATION_SAMPLES := by
          rw [hbz, List.length_take]; omega
        rw [if_neg hlg]
        refine ⟨htx.symm, hty.symm, hbz, ?_, ?_, ?_⟩
        · rw [hcalf]
          simp only [List.length_append, List.length_singleton]
          exact ⟨fun hfalse => absurd hfalse (by simp),
            fun hrhs => absurd hrhs.2 hg⟩
        · intro h1
          rw [htx, hty]
          exact ⟨rfl, rfl⟩
        · intro h1; exact absurd h1 hg
    · rw [if_neg hfull]
      refine ⟨htx.symm, hty.symm, hbz, ?_, ?_, hbg⟩
      · rw [hcalf]
        simp only [List.length_append, List.length_singleton] at hfull ⊢
        exact ⟨fun hfalse => absurd hfalse (by simp),
          fun hrhs => absurd hrhs.1 (by omega)⟩
      · intro h1
        exfalso
        simp only [List.length_append, List.length_singleton] at h1 hfull
        omega

lemma calibOk_gyro_step (s : EngineState) (x y z : ℚ) (axs ays gzs : List ℚ)
    (h : calibOk s axs ays gzs) :
    calibOk (calibration_gyro_handler s x y z) axs ays (gzs ++ [z]) := by
  obtain ⟨hbx, hby, hbz, hcal, hba, hbg⟩ := h
  by_cases hN : CALIBRATION_SAMPLES ≤ gzs.length
  · -- gyroscope buffer already full: the handler is a no-op
    have hlz : s.gyro_z_buf.length = CALIBRATION_SAMPLES := by
      rw [hbz, List.length_take]; omega
    have hguard : ¬(s.calibrated = false ∧ s.gyro_z_buf.length < CALIBRATION_SAMPLES) := by
      rintro ⟨-, hlt⟩; omega
    unfold calibration_gyro_handler
    rw [if_neg hguard]
    refine ⟨hbx, hby, ?_, ?_, hba, ?_⟩
    · rw [hbz, List.take_append_of_le_length hN]
    · rw [hcal]; simp only [List.length_append, List.length_singleton]; omega
    · intro h1
      rw [List.take_append_of_le_length hN]
      exact hbg hN
  · -- buffer not yet full: the handler appends z
    push_neg at hN
    have hlz : s.gyro_z_buf = gzs := by rw [hbz, List.take_of_length_le (le_of_lt hN)]
    have hcalf : s.calibrated = false := by
      cases hcs : s.calibrated
      · rfl
      · exact absurd ((hcal.mp hcs).2) (by omega)
    have htz : (gzs ++ [z]).take CALIBRATION_SAMPLES = gzs ++ [z] := by
      apply List.take_of_length_le; simp only [List.length_append, List.length_singleton]; omega
    unfold calibration_gyro_handler
    rw [if_pos ⟨hcalf, by rw [hlz]; omega⟩]
    simp only [hlz]
    by_cases hfull : (gzs ++ [z]).length = CALIBRATION_SAMPLES
    · rw [if_pos hfull]
      by_cases ha : CALIBRATION_SAMPLES ≤ axs.length
      · have hla : s.acc_x_buf.length = CALIBRATION_SAMPLES := by
          rw [hbx, List.length_take]; omega
        rw [if_pos hla]
        refine ⟨hbx, hby, htz.symm, ?_, ?_, ?_⟩
        · simp only [List.length_append, List.length_singleton] at hfull ⊢
          exact ⟨fun _ => ⟨ha, by omega⟩, fun _ => trivial⟩
        · intro h1
          exact hba ha
        · intro h1
          rw [htz]
      · have hla : s.acc_x_buf.length ≠ CALIBRATION_SAMPLES := by
          rw [hbx, List.length_take]; omega
        rw [if_neg hla]
        refine ⟨hbx, hby, htz.symm, ?_, ?_, ?_⟩
        · rw [hcalf]
          simp only [List.length_append, List.length_singleton]
          exact ⟨fun hfalse => absurd hfalse (by simp),
            fun hrhs => absurd hrhs.1 ha⟩
        · intro h1
          exact absurd h1 ha
        · intro h1
          rw [htz]
    · rw [if_neg hfull]
      refine ⟨hbx, hby, htz.symm, ?_, hba, ?_⟩
      · rw [hcalf]
        simp only [List.length_append, List.length_singleton] at hfull ⊢
        exact ⟨fun hfalse => absurd hfalse (by simp),
          fun hrhs => absurd hrhs.2 (by omega)⟩
      · intro h1
        exfalso
        simp only [List.length_append, List.length_singleton] at h1 hfull
        omega

/-- The blink/jaw handlers leave the state unchanged, and the motion
handlers leave all calibration fields unchanged, so one dispatched sample
transforms the calibration portion of the state exactly as the matching
calibration handler does. -/
lemma calibOk_processSample (mode : ControlMode) (s : EngineState) (m : Sample)
    (axs ays gzs : List ℚ) (hlen : axs.length = ays.length)
    (h : calibOk s axs ays gzs) :
    calibOk (processSample mode s m).1 (axs ++ accXs [m]) (ays ++ accYs [m])
      (gzs ++ gyroZs [m]) := by
  cases m with
  | acc x y z =>
      simp only [processSample, accelerometer_handler_state, accXs, accYs, gyroZs,
        List.append_nil]
      exact calibOk_acc_step s x y z axs ays gzs hlen h
  | gyro x y z =>
      have hstep := calibOk_gyro_step s x y z axs ays gzs h
      simp only [processSample, accXs, accYs, gyroZs, List.append_nil]
      have hcv : ∀ (mo : ControlMode) (t : EngineState) (a b c : ℚ),
          calibOk (gyroscope_handler mo t a b c).1 axs ays (gzs ++ [z]) ↔
            calibOk t axs ays (gzs ++ [z]) := by
        intro mo t a b c
        simp only [gyroscope_handler]
        split_ifs <;> exact Iff.rfl
      exact (hcv mode _ x y z).mpr hstep
  | blink b =>
      simpa [processSample, accXs, accYs, gyroZs] using h
  | jawClench b =>
      simpa [processSample, accXs, accYs, gyroZs] using h

/-- The calibration invariant holds along any run. -/
lemma calibOk_run (mode : ControlMode) :
    ∀ (msgs : List Sample) (s : EngineState) (axs ays gzs : List ℚ),
      axs.length = ays.length → calibOk s axs ays gzs →
      calibOk (runSamples mode s msgs).1 (axs ++ accXs msgs) (ays ++ accYs msgs)
        (gzs ++ gyroZs msgs) := by
  intro msgs
  induction msgs with
  | nil =>
      intro s axs ays gzs hlen h
      simpa [runSamples, accXs, accYs, gyroZs] using h
  | cons m rest ih =>
      intro s axs ays gzs hlen h
      have hstep := calibOk_processSample mode s m axs ays gzs hlen h
      have hlen' : (axs ++ accXs [m]).length = (ays ++ accYs [m]).length := by
        simp only [List.length_append]
        rw [hlen, accXs_length_eq_accYs_length]
      have hrun := ih (processSample mode s m).1 _ _ _ hlen' hstep
      simp only [runSamples]
      have heq1 : axs ++ accXs [m] ++ accXs rest = axs ++ accXs (m :: rest) := by
        cases m <;> simp [accXs]
      have heq2 : ays ++ accYs [m] ++ accYs rest = ays ++ accYs (m :: rest) := by
        cases m <;> simp [accYs]
      have heq3 : gzs ++ gyroZs [m] ++ gyroZs rest = gzs ++ gyroZs (m :: rest) := by
        cases m <;> simp [gyroZs]
      rw [heq1, heq2, heq3] at hrun
      exact hrun

/-- The calibration invariant at the initial state. -/
lemma calibOk_init : calibOk initState [] [] [] := by
  refine ⟨rfl, rfl, rfl, ?_, ?_, ?_⟩ <;> simp [initState, CALIBRATION_SAMPLES]

/-- The calibration invariant for a run from the initial state. -/
lemma calibOk_of_run (mode : ControlMode) (msgs : List Sample) :
    calibOk (runSamples mode initState msgs).1 (accXs msgs) (accYs msgs) (gyroZs msgs) := by
  have := calibOk_run mode msgs initState [] [] [] rfl calibOk_init
  simpa using this

/-! ### Monotonicity of the calibrated flag -/

lemma calibration_acc_handler_noop (s : EngineState) (x y z : ℚ)
    (h : s.calibrated = true) : calibration_acc_handler s x y z = s := by
  unfold calibration_acc_handler
  rw [if_neg]
  rintro ⟨hf, -⟩
  rw [h] at hf
  cases hf

lemma calibration_gyro_handler_noop (s : EngineState) (x y z : ℚ)
    (h : s.calibrated = true) : calibration_gyro_handler s x y z = s := by
  unfold calibration_gyro_handler
  rw [if_neg]
  rintro ⟨hf, -⟩
  rw [h] at hf
  cases hf

lemma gyroscope_handler_calibrated (mode : ControlMode) (s : EngineState) (x y z : ℚ) :
    (gyroscope_handler mode s x y z).1.calibrated = s.calibrated := by
  simp only [gyroscope_handler]
  split_ifs <;> rfl

lemma processSample_calibrated_of_true (mode : ControlMode) (s : EngineState) (m : Sample)
    (h : s.calibrated = true) : (processSample mode s m).1.calibrated = true := by
  cases m with
  | acc x y z =>
      simp only [processSample, accelerometer_handler_state]
      rw [calibration_acc_handler_noop s x y z h]
      exact h
  | gyro x y z =>
      simp only [processSample, gyroscope_handler_calibrated]
      rw [calibration_gyro_handler_noop s x y z h]
      exact h
  | blink b => exact h
  | jawClench b => exact h

lemma runSamples_calibrated_of_true (mode : ControlMode) :
    ∀ (msgs : List Sample) (s : EngineState), s.calibrated = true →
      (runSamples mode s msgs).1.calibrated = true := by
  intro msgs
  induction msgs with
  | nil => intro s h; exact h
  | cons m rest ih =>
      intro s h
      simp only [runSamples]
      exact ih _ (processSample_calibrated_of_true mode s m h)

/-- The number of steps of a run at which `calibrated` flips from false
to true. -/
def calibFlipCount (mode : ControlMode) : EngineState → List Sample → ℕ
  | _, [] => 0
  | s, m :: rest =>
      (if s.calibrated = false ∧ (processSample mode s m).1.calibrated = true then 1 else 0) +
        calibFlipCount mode (processSample mode s m).1 rest

lemma calibFlipCount_of_true (mode : ControlMode) :
    ∀ (msgs : List Sample) (s : EngineState), s.calibrated = true →
      calibFlipCount mode s msgs = 0 := by
  intro msgs
  induction msgs with
  | nil => intro s h; rfl
  | cons m rest ih =>
      intro s h
      simp only [calibFlipCount]
      rw [if_neg (by rw [h]; rintro ⟨hf, -⟩; cases hf),
        ih _ (processSample_calibrated_of_true mode s m h)]

lemma calibFlipCount_spec (mode : ControlMode) :
    ∀ (msgs : List Sample) (s : EngineState), s.calibrated = false →
      calibFlipCount mode s msgs =
        if (runSamples mode s msgs).1.calibrated = true then 1 else 0 := by
  intro msgs
  induction msgs with
  | nil => intro s h; simp [calibFlipCount, runSamples, h]
  | cons m rest ih =>
      intro s h
      simp only [calibFlipCount, runSamples]
      by_cases h1 : (processSample mode s m).1.calibrated = true
      · rw [if_pos ⟨h, h1⟩, calibFlipCount_of_true mode rest _ h1,
          if_pos (runSamples_calibrated_of_true mode rest _ h1)]
      · have h1' : (processSample mode s m).1.calibrated = false := by
          cases hx : (processSample mode s m).1.calibrated
          · rfl
          · exact absurd hx h1
        rw [if_neg (fun hc => h1 hc.2), ih _ h1']
        omega

/-- Claim C3: a run whose accelerometer and gyroscope sample counts both
equal `CALIBRATION_SAMPLES` (in any interleaving) ends calibrated, with
the flag having flipped exactly once and every baseline equal to the
arithmetic mean of the fed values; a run one sample short on either
sensor ends uncalibrated. -/
theorem calibration_means_exact_count (mode : ControlMode) (msgs : List Sample) :
    ((accXs msgs).length = CALIBRATION_SAMPLES ∧
     (gyroZs msgs).length = CALIBRATION_SAMPLES →
      (runSamples mode initState msgs).1.calibrated = true ∧
      (runSamples mode initState msgs).1.baseline_acc_x =
        (accXs msgs).sum / (CALIBRATION_SAMPLES : ℚ) ∧
      (runSamples mode initState msgs).1.baseline_acc_y =
        (accYs msgs).sum / (CALIBRATION_SAMPLES : ℚ) ∧
      (runSamples mode initState msgs).1.baseline_gyro_z =
        (gyroZs msgs).sum / (CALIBRATION_SAMPLES : ℚ) ∧
      calibFlipCount mode initState msgs = 1) ∧
    ((accXs msgs).length = CALIBRATION_SAMPLES - 1 →
      (runSamples mode initState msgs).1.calibrated = false) ∧
    ((gyroZs msgs).length = CALIBRATION_SAMPLES - 1 →
      (runSamples mode initState msgs).1.calibrated = false) := by
  obtain ⟨hbx, hby, hbz, hcal, hba, hbg⟩ := calibOk_of_run mode msgs
  have hlenxy := accXs_length_eq_accYs_length msgs
  have hNpos : 0 < CALIBRATION_SAMPLES := by norm_num [CALIBRATION_SAMPLES]
  refine ⟨?_, ?_, ?_⟩
  · rintro ⟨hA, hG⟩
    have hA' : CALIBRATION_SAMPLES ≤ (accXs msgs).length := le_of_eq hA.symm
    have hG' : CALIBRATION_SAMPLES ≤ (gyroZs msgs).length := le_of_eq hG.symm
    have hAy : (accYs msgs).length = CALIBRATION_SAMPLES := by omega
    have hcaltrue := hcal.mpr ⟨hA', hG'⟩
    have htx : (accXs msgs).take CALIBRATION_SAMPLES = accXs msgs :=
      List.take_of_length_le (le_of_eq hA)
    have hty : (accYs msgs).take CALIBRATION_SAMPLES = accYs msgs :=
      List.take_of_length_le (le_of_eq hAy)
    have htz : (gyroZs msgs).take CALIBRATION_SAMPLES = gyroZs msgs :=
      List.take_of_length_le (le_of_eq hG)
    refine ⟨hcaltrue, ?_, ?_, ?_, ?_⟩
    · rw [(hba hA').1, htx]
    · rw [(hba hA').2, hty]
    · rw [hbg hG', htz]
    · rw [calibFlipCount_spec mode msgs initState rfl, if_pos hcaltrue]
  · intro hA
    cases hc2 : (runSamples mode initState msgs).1.calibrated
    · rfl
    · have := (hcal.mp hc2).1
      omega
  · intro hG
    cases hc2 : (runSamples mode initState msgs).1.calibrated
    · rfl
    · have := (hcal.mp hc2).2
      omega

/-- A run of exactly `CALIBRATION_SAMPLES` all-zero accelerometer samples
followed by as many gyroscope samples. -/
def fullCalibrationRun : List Sample :=
  List.replicate CALIBRATION_SAMPLES (Sample.acc 0 0 0) ++
    List.replicate CALIBRATION_SAMPLES (Sample.gyro 0 0 0)

/-- Like `fullCalibrationRun` but one gyroscope sample short. -/
def shortCalibrationRun : List Sample :=
  List.replicate CALIBRATION_SAMPLES (Sample.acc 0 0 0) ++
    List.replicate (CALIBRATION_SAMPLES - 1) (Sample.gyro 0 0 0)

/-- Witness for C3 on concrete runs: 30 + 30 samples calibrate with zero
baselines and a single flip; 30 + 29 samples do not calibrate. -/
theorem calibration_means_exact_count_witness :
    ((runSamples ControlMode.both initState fullCalibrationRun).1.calibrated = true ∧
     (runSamples ControlMode.both initState fullCalibrationRun).1.baseline_acc_x =
       (accXs fullCalibrationRun).sum / (CALIBRATION_SAMPLES : ℚ) ∧
     (runSamples ControlMode.both initState fullCalibrationRun).1.baseline_acc_y =
       (accYs fullCalibrationRun).sum / (CALIBRATION_SAMPLES : ℚ) ∧
     (runSamples ControlMode.both initState fullCalibrationRun).1.baseline_gyro_z =
       (gyroZs fullCalibrationRun).sum / (CALIBRATION_SAMPLES : ℚ) ∧
     calibFlipCount ControlMode.both initState fullCalibrationRun = 1) ∧
    (runSamples ControlMode.both initState shortCalibrationRun).1.calibrated = false :=
  ⟨(calibration_means_exact_count ControlMode.both fullCalibrationRun).1
      ⟨by decide!, by decide!⟩,
   (calibration_means_exact_count ControlMode.both shortCalibrationRun).2.2 (by decide!)⟩

/-- Claim C4: along any run from the initial state, `calibrated` flips
false-to-true at most once and never back, it is true only when both
calibration buffers hold `CALIBRATION_SAMPLES` entries, and each baseline
is never modified after its buffer fills. -/
theorem calibration_monotone_invariant (mode : ControlMode) (msgs1 msgs2 : List Sample) :
    ((runSamples mode initState msgs1).1.calibrated = true →
      (runSamples mode initState (msgs1 ++ msgs2)).1.calibrated = true) ∧
    ((runSamples mode initState msgs1).1.calibrated = true →
      (runSamples mode initState msgs1).1.acc_x_buf.length = CALIBRATION_SAMPLES ∧
      (runSamples mode initState msgs1).1.gyro_z_buf.length = CALIBRATION_SAMPLES) ∧
    ((runSamples mode initState msgs1).1.acc_x_buf.length = CALIBRATION_SAMPLES →
      (runSamples mode initState (msgs1 ++ msgs2)).1.baseline_acc_x =
        (runSamples mode initState msgs1).1.baseline_acc_x ∧
      (runSamples mode initState (msgs1 ++ msgs2)).1.baseline_acc_y =
        (runSamples mode initState msgs1).1.baseline_acc_y) ∧
    ((runSamples mode initState msgs1).1.gyro_z_buf.length = CALIBRATION_SAMPLES →
      (runSamples mode initState (msgs1 ++ msgs2)).1.baseline_gyro_z =
        (runSamples mode initState msgs1).1.baseline_gyro_z) ∧
    calibFlipCount mode initState (msgs1 ++ msgs2) ≤ 1 := by
  obtain ⟨hbx1, hby1, hbz1, hcal1, hba1, hbg1⟩ := calibOk_of_run mode msgs1
  obtain ⟨hbx2, hby2, hbz2, hcal2, hba2, hbg2⟩ := calibOk_of_run mode (msgs1 ++ msgs2)
  rw [accXs_append, gyroZs_append] at hcal2
  rw [accXs_append, accYs_append] at hba2
  rw [gyroZs_append] at hbg2
  refine ⟨?_, ?_, ?_, ?_, ?_⟩
  · intro h1
    obtain ⟨ha, hg⟩ := hcal1.mp h1
    refine hcal2.mpr ⟨?_, ?_⟩
    · rw [List.length_append]; omega
    · rw [List.length_append]; omega
  · intro h1
    obtain ⟨ha, hg⟩ := hcal1.mp h1
    constructor
    · rw [hbx1, List.length_take]; omega
    · rw [hbz1, List.length_take]; omega
  · intro hlatch
    have ha : CALIBRATION_SAMPLES ≤ (accXs msgs1).length := by
      rw [hbx1, List.length_take] at hlatch; omega
    have hay : CALIBRATION_SAMPLES ≤ (accYs msgs1).length := by
      have := accXs_length_eq_accYs_length msgs1; omega
    have ha2 : CALIBRATION_SAMPLES ≤ (accXs msgs1 ++ accXs msgs2).length := by
      rw [List.length_append]; omega
    obtain ⟨hx2, hy2⟩ := hba2 ha2
    obtain ⟨hx1, hy1⟩ := hba1 ha
    constructor
    · rw [hx2, hx1, List.take_append_of_le_length ha]
    · rw [hy2, hy1, List.take_append_of_le_length hay]
  · intro hlatch
    have hg : CALIBRATION_SAMPLES ≤ (gyroZs msgs1).length := by
      rw [hbz1, List.length_take] at hlatch; omega
    have hg2 : CALIBRATION_SAMPLES ≤ (gyroZs msgs1 ++ gyroZs msgs2).length := by
      rw [List.length_append]; omega
    rw [hbg2 hg2, hbg1 hg, List.take_append_of_le_length hg]
  · rw [calibFlipCount_spec mode (msgs1 ++ msgs2) initState rfl]
    split_ifs <;> omega

/-- Witness for C4: after the full 30 + 30 calibration run, one more
accelerometer sample keeps `calibrated` true and all baselines intact. -/
theorem calibration_monotone_invariant_witness :
    (runSamples ControlMode.both initState
        (fullCalibrationRun ++ [Sample.acc 1 2 3])).1.calibrated = true ∧
    (runSamples ControlMode.both initState
        (fullCalibrationRun ++ [Sample.acc 1 2 3])).1.baseline_acc_x =
      (runSamples ControlMode.both initState fullCalibrationRun).1.baseline_acc_x ∧
    (runSamples ControlMode.both initState
        (fullCalibrationRun ++ [Sample.acc 1 2 3])).1.baseline_gyro_z =
      (runSamples ControlMode.both initState fullCalibrationRun).1.baseline_gyro_z :=
  ⟨(calibration_monotone_invariant ControlMode.both fullCalibrationRun
      [Sample.acc 1 2 3]).1 (by decide!),
   ((calibration_monotone_invariant ControlMode.both fullCalibrationRun
      [Sample.acc 1 2 3]).2.2.1 (by decide!)).1,
   (calibration_monotone_invariant ControlMode.both fullCalibrationRun
      [Sample.acc 1 2 3]).2.2.2.1 (by decide!)⟩

/-- The key actions performed between a termination request and process
exit: `on_key_press` (lines 211-218) reacts to ESC by calling
`sys.exit(0)`, and the cleanup in `main` (lines 312-317) only stops the
keyboard listener.  Neither path calls `keyboard.press` or
`keyboard.release`, whatever the engine state, so the action list is
empty. -/
def shutdownActions (s : EngineState) : List KeyAction := []

/-- Claim C7 concerns a required behaviour the source does not implement:
after a run that leaves the left key held (calibration followed by a
gyroscope sample at relZ = -150 in swivel mode), the termination path
performs no key release at all, so release(Left) is not observed before
exit. -/
theorem shutdown_no_release_at_exit :
    (runSamples ControlMode.swivel initState
        (fullCalibrationRun ++ [Sample.gyro 0 0 (-150)])).1.left_key_held = true ∧
    shutdownActions (runSamples ControlMode.swivel initState
        (fullCalibrationRun ++ [Sample.gyro 0 0 (-150)])).1 = [] :=
  ⟨by decide!, rfl⟩
